import Mathlib

/-!
Verification of the vLLM gateway's model lifecycle and VRAM admission
controller (`gateway/app.py`), as a shallow embedding in Lean 4.

The registry of live instances (`active_containers`, a Python dict keyed by
container name `vllm_server_<slot>`) is modelled as an association list keyed
by the slot index, preserving insertion order, as Python dicts do.  VRAM
quantities and timestamps are modelled as `Int` (the Python code uses floats
that carry integral MiB values read from `nvidia-smi` and wall-clock times;
only ordering and additive arithmetic on them matters here).
-/

namespace VllmGateway

/-- The `ContainerState` dataclass (app.py): one live engine container.
The `container_name` field is `vllm_server_<slot>` and is recoverable from
the registry key, so it is not duplicated here. -/
structure ContainerState where
  model_id : String
  last_request_time : Int
  vram_footprint : Int
deriving DecidableEq, Repr

/-- The `active_containers` dict: insertion-ordered map from slot index
(the numeric tail of the container name) to container state. -/
abbrev Registry := List (Nat × ContainerState)

/-- Python `del active_containers[name]` guarded by a membership test:
drop the entry with the given slot, keep the order of the rest. -/
def removeKey (R : Registry) (s : Nat) : Registry :=
  R.filter (fun e => e.1 != s)

/-- Python dict assignment `active_containers[name] = state`: replace in
place if the key is present, otherwise append (dicts keep insertion order). -/
def dictInsert (R : Registry) (s : Nat) (c : ContainerState) : Registry :=
  if R.any (fun e => e.1 == s) then
    R.map (fun e => if e.1 = s then (s, c) else e)
  else
    R ++ [(s, c)]

/-- Dict lookup by slot. -/
def lookupNat (R : Registry) (s : Nat) : Option ContainerState :=
  (R.find? (fun e => e.1 == s)).map Prod.snd

/-- `sum(c.vram_footprint for c in active_containers.values())`. -/
def sumFoot (l : List (Nat × ContainerState)) : Int :=
  (l.map (fun e => e.2.vram_footprint)).sum

/-- Sorting key of `sorted(active_containers.values(), key=lambda c:
c.last_request_time)`. -/
def timeLE (a b : Nat × ContainerState) : Prop :=
  a.2.last_request_time ≤ b.2.last_request_time

instance : DecidableRel timeLE := fun a b =>
  inferInstanceAs (Decidable (a.2.last_request_time ≤ b.2.last_request_time))

instance : IsTotal (Nat × ContainerState) timeLE :=
  ⟨fun a b => Int.le_total a.2.last_request_time b.2.last_request_time⟩

instance : IsTrans (Nat × ContainerState) timeLE :=
  ⟨fun _ _ _ hab hbc => le_trans hab hbc⟩

/-- `sorted(..., key=lambda c: c.last_request_time)`: Python's `sorted` is a
stable ascending sort, modelled by insertion sort over the insertion-ordered
registry. -/
def lruSort (R : Registry) : Registry :=
  List.insertionSort timeLE R

/-- The victim-collection loop of the known-footprint branch: walk the
LRU-sorted instances, append each to the victim list and subtract its
footprint from the running sum, breaking as soon as the new load fits. -/
def selectVictims : List (Nat × ContainerState) → Int → Int → Int →
    List (Nat × ContainerState)
  | [], _, _, _ => []
  | c :: rest, current, footprint, total =>
    if current - c.2.vram_footprint + footprint ≤ total then
      [c]
    else
      c :: selectVictims rest (current - c.2.vram_footprint) footprint total

/-- The whole under-lock eviction computation of the known-footprint branch:
no victims at all unless `current + footprint > total`. -/
def knownFootprintVictims (R : Registry) (footprint total : Int) :
    List (Nat × ContainerState) :=
  let current := sumFoot R
  if current + footprint > total then
    selectVictims (lruSort R) current footprint total
  else
    []

/-- `slot_indices = {int(name.split('_')[-1]) for name in keys}` followed by
`next(i for i in range(len(slot_indices) + 1) if i not in slot_indices)`:
the first index in `0 .. |slot set|` not in use. -/
def allocateSlot (used : List Nat) : Nat :=
  (((List.range (used.dedup.length + 1)).find?
      (fun i => decide (i ∉ used)))).getD 0

/-- Stopping a list of victims one by one: each `stop_container` call deletes
that entry from the registry. -/
def removeEntries (victims : List (Nat × ContainerState)) (R : Registry) :
    Registry :=
  victims.foldl (fun acc e => removeKey acc e.1) R

/-- Stopping every live container (discovery and fallback branches snapshot
all names and stop each). -/
def stopAll (R : Registry) : Registry :=
  (R.map Prod.fst).foldl (fun acc s => removeKey acc s) R

/-- The persistent footprint store `known_footprints`, an insertion-ordered
JSON object `model_id → vram_mib`. -/
abbrev FootprintStore := List (String × Int)

/-- `known_footprints[model_id] = value` (dict assignment). -/
def storePut (store : FootprintStore) (m : String) (v : Int) : FootprintStore :=
  if store.any (fun e => e.1 == m) then
    store.map (fun e => if e.1 = m then (m, v) else e)
  else
    store ++ [(m, v)]

/-- Dict `.get` on a string-keyed map. -/
def lookupStr {α : Type} (l : List (String × α)) (k : String) : Option α :=
  (l.find? (fun e => e.1 == k)).map Prod.snd

/-- Outcome of the container runtime calls inside `stop_container`: the
normal case, and the two exception classes the code catches and logs
(`NotFound`, `APIError`). -/
inductive DockerStopOutcome where
  | stopped
  | notFound
  | apiError
deriving DecidableEq

/-- `stop_container` (app.py lines 337-353): attempt to stop and remove the
docker container, catching `NotFound` and `APIError`; then, in every case,
delete the registry entry under the management lock. -/
def stop_container (R : Registry) (s : Nat) (o : DockerStopOutcome) : Registry :=
  match o with
  | .stopped => removeKey R s
  | .notFound => removeKey R s
  | .apiError => removeKey R s

/-- Joint result of an admission branch: the registry, the footprint store,
and the HTTP error status surfaced when no container was obtained. -/
structure BranchOut where
  registry : Registry
  store : FootprintStore
  error : Option Nat
deriving DecidableEq

/-- The discovery branch (app.py lines 604-657): stop every live container,
sample VRAM, launch the target in slot 0; on success take three more samples
(modelled as `s1 s2 s3`), use their maximum, and either persist the measured
footprint (when `> 256`) or keep the instance unaccounted with footprint 0;
the instance is registered in both cases.  A failed launch leaves the
registry empty, writes nothing, and surfaces 500 (raised after the locks). -/
def discoveryBranch (R : Registry) (store : FootprintStore)
    (target_model_id : String) (launch : Option ContainerState)
    (vram_before s1 s2 s3 : Int) : BranchOut :=
  let R0 := stopAll R
  match launch with
  | none => ⟨R0, store, some 500⟩
  | some tc =>
    let vram_after := max (max s1 s2) s3
    let measured := vram_after - vram_before
    if measured > 256 then
      ⟨dictInsert R0 0 { tc with vram_footprint := measured },
        storePut store target_model_id measured, none⟩
    else
      ⟨dictInsert R0 0 { tc with vram_footprint := 0 }, store, none⟩

/-- The known-footprint branch (app.py lines 659-691): under the lock,
compute victims and a free slot (the victims are still registered at this
point, exactly as in the code); stop the victims; launch; on success set the
known footprint on the new instance and register it, otherwise surface 500. -/
def knownBranch (R : Registry) (footprint total : Int)
    (launch : Option ContainerState) : Registry × Option Nat :=
  let victims := knownFootprintVictims R footprint total
  let free_slot := allocateSlot (R.map Prod.fst)
  let R1 := removeEntries victims R
  match launch with
  | none => (R1, some 500)
  | some tc => (dictInsert R1 free_slot { tc with vram_footprint := footprint }, none)

/-- The fallback branch with VRAM accounting disabled (app.py lines
694-714): stop everything, launch in slot 0. -/
def fallbackBranch (R : Registry) (launch : Option ContainerState) :
    Registry × Option Nat :=
  let R0 := stopAll R
  match launch with
  | none => (R0, some 500)
  | some tc => (dictInsert R0 0 tc, none)

/-- The parsed JSON request body, as far as the gateway inspects it:
`body.get("model")`. `none` for an absent `model` key. -/
structure RequestBody where
  model : Option String
deriving DecidableEq

/-- How the admission phase of `proxy_request` ends. -/
inductive AdmissionOutcome where
  | clientError (status : Nat)
  | serverError (status : Nat)
  | admitted (target_model_id : String)
deriving DecidableEq

/-- The gateway's global mutable state consulted by `proxy_request`. -/
structure Gateway where
  registry : Registry
  known_footprints : FootprintStore
  total_vram : Int
  allowed_models : List (String × String)
deriving DecidableEq

/-- The admission phase of `proxy_request` (app.py lines 567-718): body and
alias validation, the cache check, and the three admission branches.  The
launch result and the VRAM samples are inputs from the outside world. -/
def proxyRequest (g : Gateway) (body : Option RequestBody)
    (launch : Option ContainerState) (vram_before s1 s2 s3 : Int) :
    Gateway × AdmissionOutcome :=
  match body with
  | none => (g, .clientError 400)
  | some b =>
    match b.model with
    | none => (g, .clientError 400)
    | some model_name =>
      if model_name = "" then (g, .clientError 400)
      else
        match lookupStr g.allowed_models model_name with
        | none => (g, .clientError 400)
        | some target_model_id =>
          if g.registry.any (fun e => e.2.model_id == target_model_id) then
            (g, .admitted target_model_id)
          else
            match lookupStr g.known_footprints target_model_id with
            | none =>
              if 0 < g.total_vram then
                let res := discoveryBranch g.registry g.known_footprints
                  target_model_id launch vram_before s1 s2 s3
                let g2 := { g with registry := res.registry,
                                   known_footprints := res.store }
                match res.error with
                | some e => (g2, .serverError e)
                | none => (g2, .admitted target_model_id)
              else
                let res := fallbackBranch g.registry launch
                let g2 := { g with registry := res.1 }
                match res.2 with
                | some e => (g2, .serverError e)
                | none => (g2, .admitted target_model_id)
            | some fp =>
              if 0 < g.total_vram then
                let res := knownBranch g.registry fp g.total_vram launch
                let g2 := { g with registry := res.1 }
                match res.2 with
                | some e => (g2, .serverError e)
                | none => (g2, .admitted target_model_id)
              else
                let res := fallbackBranch g.registry launch
                let g2 := { g with registry := res.1 }
                match res.2 with
                | some e => (g2, .serverError e)
                | none => (g2, .admitted target_model_id)

/-- ASCII digit test, as in the regex class `\d`. -/
def isDigitCh (c : Char) : Bool := '0' ≤ c && c ≤ '9'

/-- The regex class `[k0-9]`, on lowercased input. -/
def isK09 (c : Char) : Bool := c == 'k' || isDigitCh c

/-- Matcher for the regex fragment `q\d+[_-]?[k0-9]*` against a whole
(lowercased) string: a `q`, at least one digit, an optional single `_` or
`-` separator, then only `k` and digits. -/
def matchQuantCore (s : List Char) : Bool :=
  match s with
  | 'q' :: rest =>
    let ds := rest.takeWhile isDigitCh
    let r := rest.dropWhile isDigitCh
    !ds.isEmpty &&
      (r.all isK09 ||
        (match r with
         | c :: r2 => (c == '_' || c == '-') && r2.all isK09
         | [] => false))
  | _ => false

/-- Whole-string matcher for `-?(qat-)?q\d+[_-]?[k0-9]*-?gguf` on a
lowercased candidate suffix. -/
def isP1 (s : List Char) : Bool :=
  if ['g', 'g', 'u', 'f'].isSuffixOf s then
    let t := s.take (s.length - 4)
    let t1 := if t.getLast? == some '-' then t.dropLast else t
    let t2 := if t1.take 1 == ['-'] then t1.drop 1 else t1
    let t3 := if t2.take 4 == ['q', 'a', 't', '-'] then t2.drop 4 else t2
    matchQuantCore t3
  else false

/-- Whole-string matcher for `-?gguf` on a lowercased candidate suffix. -/
def isP2 (s : List Char) : Bool :=
  s == ['g', 'g', 'u', 'f'] || s == ['-', 'g', 'g', 'u', 'f']

/-- Whole-string matcher for `-?int\d+-?gguf` on a lowercased candidate
suffix. -/
def isP3 (s : List Char) : Bool :=
  let t := if s.take 1 == ['-'] then s.drop 1 else s
  if t.take 3 == ['i', 'n', 't'] then
    let rest := t.drop 3
    let ds := rest.takeWhile isDigitCh
    let r := rest.dropWhile isDigitCh
    !ds.isEmpty && (r == ['g', 'g', 'u', 'f'] || r == ['-', 'g', 'g', 'u', 'f'])
  else false

/-- `re.sub(pattern + '$', '', s, flags=IGNORECASE)` for a pattern that can
never match the empty string: remove the longest (leftmost-starting) suffix
whose lowercasing matches, if any. -/
def subEnd (p : List Char → Bool) (s : List Char) : List Char :=
  match (List.range (s.length + 1)).find?
      (fun k => p ((s.drop k).map Char.toLower)) with
  | some k => s.take k
  | none => s

/-- Python `str.split(sep)` for a one-character separator (keeps empty
pieces, one piece when the separator is absent). -/
def splitOnChar (sep : Char) : List Char → List (List Char)
  | [] => [[]]
  | c :: rest =>
    let r := splitOnChar sep rest
    if c == sep then [] :: r
    else
      match r with
      | h :: t => (c :: h) :: t
      | [] => [[c]]

/-- `infer_base_model_from_gguf_repo` (app.py lines 196-223): split the repo
id on `/`; if not exactly `org/name`, return `None`; otherwise apply the
three tail substitutions in the order the code does and re-attach the org. -/
def infer_base_model_from_gguf_repo (gguf_repo_id : String) : Option String :=
  match splitOnChar '/' gguf_repo_id.toList with
  | [org, repo_name] =>
    let b1 := subEnd isP1 repo_name
    let b2 := subEnd isP2 b1
    let b3 := subEnd isP3 b2
    some (String.mk (org ++ '/' :: b3))
  | _ => none

/-- Registry invariant of the spec: no two live instances share a slot index
and no two live instances share a model id. -/
def RegInv (R : Registry) : Prop :=
  (R.map Prod.fst).Nodup ∧ (R.map (fun e => e.2.model_id)).Nodup

/-- One registry mutation performed by the code, at the granularity at which
`model_management_lock` serialises registry access: a `stop_container` call,
the touch of `last_request_time` before forwarding, and the
registration/eviction effects of the three admission branches.  The
`knownSuccess` side condition records the double-check under the per-model
start lock: the branch only runs when no live instance serves the target
model. -/
inductive Step : Registry → Registry → Prop where
  | stop (R : Registry) (s : Nat) (o : DockerStopOutcome) :
      Step R (stop_container R s o)
  | touch (R : Registry) (s : Nat) (t : Int) :
      Step R (R.map (fun e =>
        if e.1 = s then (e.1, { e.2 with last_request_time := t }) else e))
  | discoverySuccess (R : Registry) (tc : ContainerState) (v : Int) :
      Step R (dictInsert (stopAll R) 0 { tc with vram_footprint := v })
  | discoveryFail (R : Registry) : Step R (stopAll R)
  | knownSuccess (R : Registry) (fp tot : Int) (tc : ContainerState)
      (h : ∀ e ∈ R, e.2.model_id ≠ tc.model_id) :
      Step R (dictInsert (removeEntries (knownFootprintVictims R fp tot) R)
        (allocateSlot (R.map Prod.fst)) { tc with vram_footprint := fp })
  | knownFail (R : Registry) (fp tot : Int) :
      Step R (removeEntries (knownFootprintVictims R fp tot) R)
  | fallbackSuccess (R : Registry) (tc : ContainerState) :
      Step R (dictInsert (stopAll R) 0 tc)
  | fallbackFail (R : Registry) : Step R (stopAll R)

/-- Registry states reachable from the empty registry the process starts
with, by any interleaving of the mutations in `Step`. -/
inductive Reachable : Registry → Prop where
  | nil : Reachable []
  | step {R R2 : Registry} : Reachable R → Step R R2 → Reachable R2

/-- What the engine call inside the forwarding phase produced: a response
with an HTTP status, or a transport failure (`httpx.RequestError`). -/
inductive UpstreamResult where
  | response (status : Nat)
  | transportError
deriving DecidableEq

/-- The gateway's reply to the client, abstracted to its HTTP status and the
top-level keys of its JSON body (empty for a passthrough body). -/
structure GatewayResponse where
  status : Nat
  body_keys : List String
deriving DecidableEq

/-- The forwarding phase of `proxy_request` after admission (app.py lines
744-775): `raise_for_status` turns an engine 4xx/5xx into a JSON
`{error, details}` reply carrying the engine's status; a transport error
becomes an `HTTPException` with status 503 (FastAPI renders `{detail}`);
otherwise the engine's response is passed through (streamed or unary). -/
def forwardResponse (u : UpstreamResult) (is_streaming : Bool) :
    GatewayResponse :=
  match u with
  | .response status =>
    if 400 ≤ status then
      { status := status, body_keys := ["error", "details"] }
    else
      { status := status, body_keys := if is_streaming then [] else [] }
  | .transportError => { status := 503, body_keys := ["detail"] }

/-! ### Helper lemmas -/

lemma foldl_removeKey_eq_nil (ns : List Nat) :
    ∀ S : Registry, (∀ e ∈ S, e.1 ∈ ns) →
      ns.foldl (fun acc s => removeKey acc s) S = [] := by
  induction ns with
  | nil =>
    intro S h
    cases S with
    | nil => rfl
    | cons e S2 => exact absurd (h e (List.mem_cons_self e S2)) (List.not_mem_nil e.1)
  | cons n ns ih =>
    intro S h
    simp only [List.foldl_cons]
    apply ih
    intro e he
    have hmem : e ∈ S ∧ ¬e.1 = n := by simpa [removeKey] using he
    rcases List.mem_cons.1 (h e hmem.1) with h3 | h3
    · exact absurd h3 hmem.2
    · exact h3

lemma stopAll_eq_nil (R : Registry) : stopAll R = [] := by
  apply foldl_removeKey_eq_nil
  intro e he
  exact List.mem_map_of_mem Prod.fst he

lemma lookupNat_removeKey (R : Registry) (s : Nat) :
    lookupNat (removeKey R s) s = none := by
  unfold lookupNat
  have h : (removeKey R s).find? (fun e => e.1 == s) = none := by
    rw [List.find?_eq_none]
    intro x hx
    have hmem : x ∈ R ∧ ¬x.1 = s := by simpa [removeKey] using hx
    simp [hmem.2]
  rw [h]
  rfl

/-! ### C10 -/

/-- C10: `stop_container(name)` always removes the entry for `name` from the
registry of live instances — after the stop attempt the entry is deleted
whether the container runtime succeeded, raised `NotFound`, or raised an
`APIError`. -/
theorem stop_container_always_removes_entry (R : Registry) (s : Nat)
    (o : DockerStopOutcome) :
    stop_container R s o = removeKey R s ∧
    lookupNat (stop_container R s o) s = none := by
  cases o <;> exact ⟨rfl, lookupNat_removeKey R s⟩

/-! ### C6 -/

/-- C6 (code divergence): the inferred base repo is obtained by the three
tail substitutions applied in sequence.  On `owner/name-q4_0-gguf` this
yields `owner/name` as the claim states, but on `owner/name-int4-gguf` the
generic `-?gguf$` substitution fires first and leaves `owner/name-int4`,
so the `-?int\d+-?gguf$` pattern never sees a `gguf` tail: the code returns
`owner/name-int4`, not the `owner/name` the claim requires. -/
theorem infer_base_model_gguf_suffix_behaviour :
    infer_base_model_from_gguf_repo "owner/name-q4_0-gguf" =
      some "owner/name" ∧
    infer_base_model_from_gguf_repo "google/gemma-3-12b-it-qat-q4_0-gguf" =
      some "google/gemma-3-12b-it" ∧
    infer_base_model_from_gguf_repo "owner/name-int4-gguf" =
      some "owner/name-int4" :=
  ⟨by decide, by decide, by decide⟩

/-! ### C8 -/

/-- C8: after admission, an engine reply with an HTTP error status becomes a
JSON body with `error` and `details` fields carried with the engine's own
status code, and a transport failure to the engine becomes status 503. -/
theorem forwarding_error_mapping (s : Nat) (is_streaming : Bool)
    (h : 400 ≤ s) :
    forwardResponse (.response s) is_streaming =
      { status := s, body_keys := ["error", "details"] } ∧
    forwardResponse .transportError is_streaming =
      { status := 503, body_keys := ["detail"] } := by
  constructor
  · simp [forwardResponse, h]
  · rfl

theorem forwarding_error_mapping_witness :
    forwardResponse (.response 500) true =
      { status := 500, body_keys := ["error", "details"] } ∧
    forwardResponse .transportError false =
      { status := 503, body_keys := ["detail"] } :=
  ⟨(forwarding_error_mapping 500 true (by decide)).1,
   (forwarding_error_mapping 500 false (by decide)).2⟩

/-! ### C2 -/

/-- C2: on a discovery run with a successful launch, the measured footprint
is the maximum of the three used-VRAM samples minus the pre-launch sample;
when it exceeds 256 it is persisted to the footprint store and set on the
registered instance, and when it is at most 256 the instance is still
registered (live) with footprint 0 and the store is untouched. -/
theorem discovery_measurement (R : Registry) (store : FootprintStore)
    (target : String) (tc : ContainerState) (vram_before s1 s2 s3 : Int) :
    (256 < max (max s1 s2) s3 - vram_before →
      discoveryBranch R store target (some tc) vram_before s1 s2 s3 =
        ⟨[(0, { tc with vram_footprint := max (max s1 s2) s3 - vram_before })],
          storePut store target (max (max s1 s2) s3 - vram_before), none⟩) ∧
    (max (max s1 s2) s3 - vram_before ≤ 256 →
      discoveryBranch R store target (some tc) vram_before s1 s2 s3 =
        ⟨[(0, { tc with vram_footprint := 0 })], store, none⟩) := by
  constructor
  · intro h
    simp only [discoveryBranch, stopAll_eq_nil, if_pos h]
    rfl
  · intro h
    simp only [discoveryBranch, stopAll_eq_nil, if_neg (not_lt.2 h)]
    rfl

theorem discovery_measurement_witness :
    discoveryBranch [] [] "repo/M" (some ⟨"repo/M", 3, 0⟩) 1000 5800 6000 5900 =
      ⟨[(0, ⟨"repo/M", 3, 5000⟩)], [("repo/M", 5000)], none⟩ ∧
    discoveryBranch [] [] "repo/M" (some ⟨"repo/M", 7, 0⟩) 1000 1100 1100 1050 =
      ⟨[(0, ⟨"repo/M", 7, 0⟩)], [], none⟩ := by
  constructor
  · rw [(discovery_measurement [] [] "repo/M" ⟨"repo/M", 3, 0⟩
      1000 5800 6000 5900).1 (by decide)]
    decide
  · rw [(discovery_measurement [] [] "repo/M" ⟨"repo/M", 7, 0⟩
      1000 1100 1100 1050).2 (by decide)]

/-! ### C9 -/

/-- C9: the discovery branch stops and removes every previously live
instance before launching the target; when the launch then fails nothing is
restored or inserted, the footprint store is untouched, the request is
surfaced as status 500, and the registry is left empty. -/
theorem discovery_launch_failure_empties_registry (R : Registry)
    (store : FootprintStore) (target : String) (vram_before s1 s2 s3 : Int) :
    stopAll R = [] ∧
    discoveryBranch R store target none vram_before s1 s2 s3 =
      ⟨[], store, some 500⟩ := by
  refine ⟨stopAll_eq_nil R, ?_⟩
  simp only [discoveryBranch, stopAll_eq_nil]

/-! ### C4 -/

/-- C4: a request whose JSON body is missing or unparseable, whose `model`
field is absent (or Python-falsy), or whose alias is outside the
allowed-models map, is answered with status 400 with the gateway state
untouched — before any admission work. -/
theorem invalid_request_rejected (g : Gateway) (body : Option RequestBody)
    (launch : Option ContainerState) (vram_before s1 s2 s3 : Int)
    (h : body = none ∨ ∃ rb, body = some rb ∧
      (rb.model = none ∨ rb.model = some "" ∨
        ∃ m, rb.model = some m ∧ lookupStr g.allowed_models m = none)) :
    proxyRequest g body launch vram_before s1 s2 s3 =
      (g, .clientError 400) := by
  rcases h with h | ⟨rb, rfl, h⟩
  · subst h; rfl
  · rcases h with h | h | ⟨m, hm, hl⟩
    · simp [proxyRequest, h]
    · simp [proxyRequest, h]
    · by_cases h0 : m = ""
      · simp [proxyRequest, hm, h0]
      · simp [proxyRequest, hm, h0, hl]

theorem invalid_request_rejected_witness :
    proxyRequest ⟨[], [], 24576, [("m", "repo/M")]⟩ (some ⟨some "other"⟩)
        none 0 0 0 0 =
      (⟨[], [], 24576, [("m", "repo/M")]⟩, .clientError 400) :=
  invalid_request_rejected _ _ _ _ _ _ _
    (Or.inr ⟨⟨some "other"⟩, rfl,
      Or.inr (Or.inr ⟨"other", rfl, by decide⟩)⟩)

/-! ### C1 -/

lemma sumFoot_nil : sumFoot [] = 0 := rfl

lemma sumFoot_cons (c : Nat × ContainerState) (l : List (Nat × ContainerState)) :
    sumFoot (c :: l) = c.2.vram_footprint + sumFoot l := by
  simp [sumFoot]

lemma selectVictims_initseg (l : List (Nat × ContainerState)) :
    ∀ current footprint total : Int,
      ∃ t2, selectVictims l current footprint total ++ t2 = l := by
  induction l with
  | nil => intro cur fp tot; exact ⟨[], rfl⟩
  | cons c rest ih =>
    intro cur fp tot
    simp only [selectVictims]
    by_cases h : cur - c.2.vram_footprint + fp ≤ tot
    · rw [if_pos h]; exact ⟨rest, rfl⟩
    · rw [if_neg h]
      obtain ⟨t2, ht⟩ := ih (cur - c.2.vram_footprint) fp tot
      exact ⟨t2, by rw [List.cons_append, ht]⟩

lemma selectVictims_min (l : List (Nat × ContainerState)) :
    ∀ current footprint total : Int, total < current + footprint →
      ∀ k, k < (selectVictims l current footprint total).length →
        total < current - sumFoot (l.take k) + footprint := by
  induction l with
  | nil => intro cur fp tot h k hk; simp [selectVictims] at hk
  | cons c rest ih =>
    intro cur fp tot h k hk
    simp only [selectVictims] at hk
    by_cases hc : cur - c.2.vram_footprint + fp ≤ tot
    · rw [if_pos hc] at hk
      have hk0 : k = 0 := Nat.lt_one_iff.1 (by simpa using hk)
      subst hk0
      simpa [sumFoot_nil] using h
    · rw [if_neg hc] at hk
      cases k with
      | zero => simpa [sumFoot_nil] using h
      | succ k2 =>
        have h3 := ih (cur - c.2.vram_footprint) fp tot (not_le.1 hc) k2
          (by simpa using hk)
        simpa [List.take_succ_cons, sumFoot_cons, sub_sub] using h3

lemma selectVictims_fits (l : List (Nat × ContainerState)) :
    ∀ current footprint total : Int,
      (selectVictims l current footprint total).length < l.length →
      current - sumFoot (selectVictims l current footprint total) + footprint
        ≤ total := by
  induction l with
  | nil => intro cur fp tot h; simp [selectVictims] at h
  | cons c rest ih =>
    intro cur fp tot h
    simp only [selectVictims] at h ⊢
    by_cases hc : cur - c.2.vram_footprint + fp ≤ tot
    · rw [if_pos hc] at h ⊢
      simpa [sumFoot_cons, sumFoot_nil] using hc
    · rw [if_neg hc] at h ⊢
      have h2 := ih (cur - c.2.vram_footprint) fp tot (by simpa using h)
      simpa [sumFoot_cons, sub_sub] using h2

/-- C1: on the known-footprint admission path, when the current VRAM sum
plus the new footprint fits in the total (including an exact fit) no
instance is evicted; otherwise the victims are an initial segment of the
ascending-`last_used` order, every shorter victim list would still not fit
(each victim's footprint is subtracted from the running sum), and whenever
collection stopped early the remaining load fits. -/
theorem known_footprint_admission (R : Registry) (footprint total : Int) :
    (sumFoot R + footprint ≤ total →
      knownFootprintVictims R footprint total = []) ∧
    (total < sumFoot R + footprint →
      (∃ t2, knownFootprintVictims R footprint total ++ t2 = lruSort R) ∧
      (∀ k, k < (knownFootprintVictims R footprint total).length →
        total < sumFoot R - sumFoot ((lruSort R).take k) + footprint) ∧
      ((knownFootprintVictims R footprint total).length < R.length →
        sumFoot R - sumFoot (knownFootprintVictims R footprint total)
          + footprint ≤ total)) := by
  constructor
  · intro h
    unfold knownFootprintVictims
    rw [if_neg (not_lt.2 h)]
  · intro h
    unfold knownFootprintVictims
    rw [if_pos h]
    refine ⟨selectVictims_initseg _ _ _ _, ?_, ?_⟩
    · intro k hk
      exact selectVictims_min _ _ _ _ h k hk
    · intro hlen
      apply selectVictims_fits
      simp only [lruSort, List.length_insertionSort]
      exact hlen

theorem known_footprint_admission_witness :
    (∃ t2, knownFootprintVictims
        [(0, ⟨"A", 0, 10000⟩), (1, ⟨"B", 90, 4000⟩)] 8000 16000 ++ t2 =
      lruSort [(0, ⟨"A", 0, 10000⟩), (1, ⟨"B", 90, 4000⟩)]) ∧
    knownFootprintVictims
        [(0, ⟨"A", 0, 10000⟩), (1, ⟨"B", 90, 4000⟩)] 2000 16000 = [] :=
  ⟨((known_footprint_admission
      [(0, ⟨"A", 0, 10000⟩), (1, ⟨"B", 90, 4000⟩)] 8000 16000).2
      (by decide)).1,
   (known_footprint_admission
      [(0, ⟨"A", 0, 10000⟩), (1, ⟨"B", 90, 4000⟩)] 2000 16000).1
      (by decide)⟩

/-! ### C5 -/

lemma exists_slot_free (used : List Nat) :
    ∃ i, i < used.dedup.length + 1 ∧ i ∉ used := by
  by_contra hc
  push_neg at hc
  have hsub : Finset.range (used.dedup.length + 1) ⊆ used.toFinset := by
    intro i hi
    exact List.mem_toFinset.2 (hc i (Finset.mem_range.1 hi))
  have hcard := Finset.card_le_card hsub
  rw [Finset.card_range, List.card_toFinset] at hcard
  omega

lemma find?_range_least (p : Nat → Bool) :
    ∀ n k, (List.range n).find? p = some k →
      p k = true ∧ ∀ j < k, p j = false := by
  intro n
  induction n with
  | zero => intro k h; simp [List.range_zero] at h
  | succ n ih =>
    intro k h
    rw [List.range_succ, List.find?_append] at h
    cases hfind : (List.range n).find? p with
    | some k2 =>
      rw [hfind] at h
      have h2 : k2 = k := by simpa [Option.or] using h
      exact h2 ▸ ih k2 hfind
    | none =>
      rw [hfind] at h
      simp only [Option.or] at h
      have hall := List.find?_eq_none.1 hfind
      by_cases hp : p n = true
      · rw [List.find?_cons_of_pos _ hp] at h
        cases h
        refine ⟨hp, fun j hj => ?_⟩
        have := hall j (List.mem_range.2 hj)
        exact Bool.not_eq_true _ ▸ (by simpa using this)
      · rw [List.find?_cons_of_neg _ hp] at h
        simp at h

lemma allocateSlot_spec (used : List Nat) :
    allocateSlot used ∉ used ∧ ∀ j < allocateSlot used, j ∈ used := by
  obtain ⟨i, hi, hfree⟩ := exists_slot_free used
  obtain ⟨k, hk⟩ : ∃ k, (List.range (used.dedup.length + 1)).find?
      (fun i => decide (i ∉ used)) = some k := by
    cases hfind : (List.range (used.dedup.length + 1)).find?
        (fun i => decide (i ∉ used)) with
    | none =>
      exfalso
      have := List.find?_eq_none.1 hfind i (List.mem_range.2 hi)
      simp [hfree] at this
    | some k => exact ⟨k, rfl⟩
  have hspec := find?_range_least _ _ _ hk
  have hak : allocateSlot used = k := by
    unfold allocateSlot
    rw [hk]
    rfl
  rw [hak]
  constructor
  · simpa using hspec.1
  · intro j hj
    simpa using hspec.2 j hj

lemma allocateSlot_eq_of (used : List Nat) (x : Nat)
    (h1 : x ∉ used) (h2 : ∀ j < x, j ∈ used) : allocateSlot used = x := by
  obtain ⟨ha1, ha2⟩ := allocateSlot_spec used
  rcases lt_trichotomy (allocateSlot used) x with h | h | h
  · exact absurd (h2 _ h) ha1
  · exact h
  · exact absurd (ha2 _ h) h1

/-- C5: slot allocation (the under-lock computation of the known-footprint
path) returns the smallest non-negative integer not among the slots in use;
in particular, with slots `0..n` in use except one removed slot `k`, the
reclaimed slot `k` is returned. -/
theorem allocate_slot_smallest_free (used : List Nat) (n k : Nat)
    (h : k ≤ n) :
    (allocateSlot used ∉ used ∧ ∀ j < allocateSlot used, j ∈ used) ∧
    allocateSlot ((List.range (n + 1)).filter (fun i => i != k)) = k := by
  refine ⟨allocateSlot_spec used, ?_⟩
  apply allocateSlot_eq_of
  · intro hmem
    have h2 := (List.mem_filter.1 hmem).2
    simp at h2
  · intro j hj
    refine List.mem_filter.2 ⟨List.mem_range.2 (by omega), ?_⟩
    simp [Nat.ne_of_lt hj]

theorem allocate_slot_smallest_free_witness :
    allocateSlot ((List.range (3 + 1)).filter (fun i => i != 1)) = 1 ∧
    allocateSlot [0, 1, 2] ∉ [0, 1, 2] :=
  ⟨(allocate_slot_smallest_free [] 3 1 (by decide)).2,
   ((allocate_slot_smallest_free [0, 1, 2] 3 1 (by decide)).1).1⟩

/-! ### C3 -/

/-- C3 counterexample: a reachable registry — slot 1 registered before
slot 0 (the dict keeps insertion order; slot 0 was freed and reallocated
later), both live instances with the same `last_request_time` — on which
the eviction computation picks slot 1 as the first victim, not the lower
slot 0 the claim's tie-break requires.  The code sorts only by
`last_request_time`, so ties keep registry order. -/
theorem eviction_tie_counterexample :
    Reachable [(1, ⟨"m1", 100, 8000⟩), (0, ⟨"m0", 100, 8000⟩)] ∧
    (knownFootprintVictims
        [(1, ⟨"m1", 100, 8000⟩), (0, ⟨"m0", 100, 8000⟩)] 1000 10000).map
      Prod.fst = [1] := by
  constructor
  · have h1 : Reachable ([(0, ⟨"mA", 0, 8000⟩)] : Registry) :=
      Reachable.step Reachable.nil (Step.fallbackSuccess [] ⟨"mA", 0, 8000⟩)
    have h2 : Reachable
        ([(0, ⟨"mA", 0, 8000⟩), (1, ⟨"m1", 100, 8000⟩)] : Registry) := by
      have s2 := Reachable.step h1
        (Step.knownSuccess [(0, ⟨"mA", 0, 8000⟩)] 8000 1000000
          ⟨"m1", 100, 0⟩ (by decide))
      have heq : dictInsert
          (removeEntries
            (knownFootprintVictims [(0, ⟨"mA", 0, 8000⟩)] 8000 1000000)
            [(0, ⟨"mA", 0, 8000⟩)])
          (allocateSlot (List.map Prod.fst ([(0, ⟨"mA", 0, 8000⟩)] : Registry)))
          { (⟨"m1", 100, 0⟩ : ContainerState) with vram_footprint := 8000 } =
          [(0, ⟨"mA", 0, 8000⟩), (1, ⟨"m1", 100, 8000⟩)] := by decide
      exact heq ▸ s2
    have h3 : Reachable ([(1, ⟨"m1", 100, 8000⟩)] : Registry) := by
      have s3 := Reachable.step h2
        (Step.stop [(0, ⟨"mA", 0, 8000⟩), (1, ⟨"m1", 100, 8000⟩)] 0
          DockerStopOutcome.stopped)
      have heq : stop_container
          [(0, ⟨"mA", 0, 8000⟩), (1, ⟨"m1", 100, 8000⟩)] 0
          DockerStopOutcome.stopped = [(1, ⟨"m1", 100, 8000⟩)] := by decide
      exact heq ▸ s3
    have s4 := Reachable.step h3
      (Step.knownSuccess [(1, ⟨"m1", 100, 8000⟩)] 8000 1000000
        ⟨"m0", 100, 0⟩ (by decide))
    have heq : dictInsert
        (removeEntries
          (knownFootprintVictims [(1, ⟨"m1", 100, 8000⟩)] 8000 1000000)
          [(1, ⟨"m1", 100, 8000⟩)])
        (allocateSlot (List.map Prod.fst ([(1, ⟨"m1", 100, 8000⟩)] : Registry)))
        { (⟨"m0", 100, 0⟩ : ContainerState) with vram_footprint := 8000 } =
        [(1, ⟨"m1", 100, 8000⟩), (0, ⟨"m0", 100, 8000⟩)] := by decide
    exact heq ▸ s4
  · decide

lemma filter_orderedInsert (t : Int) (a : Nat × ContainerState)
    (l : List (Nat × ContainerState)) :
    (List.orderedInsert timeLE a l).filter
        (fun e => e.2.last_request_time == t) =
      if a.2.last_request_time = t then
        a :: l.filter (fun e => e.2.last_request_time == t)
      else l.filter (fun e => e.2.last_request_time == t) := by
  induction l with
  | nil =>
    by_cases h : a.2.last_request_time = t
    · simp [List.orderedInsert, h]
    · simp [List.orderedInsert, h]
  | cons b l ih =>
    simp only [List.orderedInsert]
    by_cases hr : timeLE a b
    · rw [if_pos hr]
      by_cases h : a.2.last_request_time = t
      · simp [List.filter_cons, h]
      · simp [List.filter_cons, h]
    · rw [if_neg hr]
      have hbt : b.2.last_request_time < a.2.last_request_time := not_le.1 hr
      by_cases h : a.2.last_request_time = t
      · have hb : ¬(b.2.last_request_time = t) := by
          rw [← h]; exact ne_of_lt hbt
        simp [List.filter_cons, hb, ih, h]
      · simp [List.filter_cons, ih, h]

lemma lruSort_filter (R : Registry) (t : Int) :
    (lruSort R).filter (fun e => e.2.last_request_time == t) =
      R.filter (fun e => e.2.last_request_time == t) := by
  induction R with
  | nil => rfl
  | cons a R ih =>
    simp only [lruSort, List.insertionSort] at ih ⊢
    rw [filter_orderedInsert, ih]
    by_cases h : a.2.last_request_time = t
    · simp [List.filter_cons, h]
    · simp [List.filter_cons, h]

/-- C3 amended: eviction order is ascending `last_used` (the victim list is
drawn from `lruSort`, which is sorted by `last_request_time`), and the sort
is stable: instances with equal `last_request_time` keep the registry's
insertion order — the tie-break is registry order, not slot index. -/
theorem eviction_lru_stable (R : Registry) :
    List.Sorted timeLE (lruSort R) ∧
    ∀ t : Int, (lruSort R).filter (fun e => e.2.last_request_time == t) =
      R.filter (fun e => e.2.last_request_time == t) :=
  ⟨List.sorted_insertionSort timeLE R, fun t => lruSort_filter R t⟩

/-! ### C7 -/

lemma removeKey_sublist (R : Registry) (s : Nat) :
    (removeKey R s).Sublist R :=
  List.filter_sublist R

lemma removeEntries_sublist (victims : List (Nat × ContainerState)) :
    ∀ R : Registry, (removeEntries victims R).Sublist R := by
  induction victims with
  | nil => intro R; exact List.Sublist.refl R
  | cons v vs ih =>
    intro R
    exact (ih (removeKey R v.1)).trans (removeKey_sublist R v.1)

lemma RegInv_sublist {R S : Registry} (hs : S.Sublist R) (h : RegInv R) :
    RegInv S :=
  ⟨List.Nodup.sublist (hs.map Prod.fst) h.1,
   List.Nodup.sublist (hs.map (fun e => e.2.model_id)) h.2⟩

lemma dictInsert_notMem (R : Registry) (s : Nat) (c : ContainerState)
    (h : s ∉ R.map Prod.fst) : dictInsert R s c = R ++ [(s, c)] := by
  unfold dictInsert
  rw [if_neg]
  intro hany
  obtain ⟨e, he, heq⟩ := List.any_eq_true.1 hany
  exact h (by
    have : e.1 = s := by simpa using heq
    exact this ▸ List.mem_map_of_mem Prod.fst he)

lemma RegInv_append (R : Registry) (s : Nat) (c : ContainerState)
    (h : RegInv R) (hs : s ∉ R.map Prod.fst)
    (hm : c.model_id ∉ R.map (fun e => e.2.model_id)) :
    RegInv (R ++ [(s, c)]) := by
  constructor
  · rw [List.map_append]
    exact List.nodup_append.2
      ⟨h.1, List.nodup_singleton _, List.disjoint_singleton.2 hs⟩
  · rw [List.map_append]
    exact List.nodup_append.2
      ⟨h.2, List.nodup_singleton _, List.disjoint_singleton.2 hm⟩

lemma RegInv_touch (R : Registry) (s : Nat) (t : Int) (h : RegInv R) :
    RegInv (R.map (fun e =>
      if e.1 = s then (e.1, { e.2 with last_request_time := t }) else e)) := by
  constructor
  · have hkeys : (R.map (fun e =>
        if e.1 = s then (e.1, { e.2 with last_request_time := t }) else e)).map
          Prod.fst = R.map Prod.fst := by
      rw [List.map_map]
      apply List.map_congr_left
      intro e _
      by_cases he : e.1 = s <;> simp [he]
    rw [hkeys]
    exact h.1
  · have hmods : (R.map (fun e =>
        if e.1 = s then (e.1, { e.2 with last_request_time := t }) else e)).map
          (fun e => e.2.model_id) = R.map (fun e => e.2.model_id) := by
      rw [List.map_map]
      apply List.map_congr_left
      intro e _
      by_cases he : e.1 = s <;> simp [he]
    rw [hmods]
    exact h.2

lemma RegInv_nil : RegInv ([] : Registry) :=
  ⟨List.nodup_nil, List.nodup_nil⟩

lemma RegInv_singleton (s : Nat) (c : ContainerState) :
    RegInv [(s, c)] :=
  ⟨List.nodup_singleton _, List.nodup_singleton _⟩

/-- C7: in every reachable registry state no two live instances share a
model id and no two share a slot index; each registry mutation the code
performs (stop/remove, touch, and the registration paths of the discovery,
known-footprint and fallback branches) preserves this. -/
theorem registry_invariant (R : Registry) (h : Reachable R) : RegInv R := by
  induction h with
  | nil => exact RegInv_nil
  | step hR hstep ih =>
    rename_i R1 R2
    cases hstep with
    | stop s o =>
      cases o <;> exact RegInv_sublist (removeKey_sublist _ _) ih
    | touch s t => exact RegInv_touch _ _ _ ih
    | discoverySuccess tc v =>
      rw [stopAll_eq_nil, dictInsert_notMem _ _ _ (by simp)]
      exact RegInv_singleton _ _
    | discoveryFail =>
      rw [stopAll_eq_nil]; exact RegInv_nil
    | knownSuccess fp tot tc hmodels =>
      have hsub := removeEntries_sublist (knownFootprintVictims R1 fp tot) R1
      have hInv1 := RegInv_sublist hsub ih
      have hslot : allocateSlot (R1.map Prod.fst) ∉ R1.map Prod.fst :=
        (allocateSlot_spec _).1
      have hslot1 : allocateSlot (R1.map Prod.fst) ∉
          (removeEntries (knownFootprintVictims R1 fp tot) R1).map Prod.fst :=
        fun hmem => hslot ((hsub.map Prod.fst).subset hmem)
      have hm1 : ContainerState.model_id
          { tc with vram_footprint := fp } ∉
          (removeEntries (knownFootprintVictims R1 fp tot) R1).map
            (fun e => e.2.model_id) := by
      -- the double-check under the start lock: the target model is not live
        intro hmem
        obtain ⟨e, he, heq⟩ := List.mem_map.1 hmem
        exact hmodels e (hsub.subset he) heq
      rw [dictInsert_notMem _ _ _ hslot1]
      exact RegInv_append _ _ _ hInv1 hslot1 hm1
    | knownFail fp tot =>
      exact RegInv_sublist (removeEntries_sublist _ _) ih
    | fallbackSuccess tc =>
      rw [stopAll_eq_nil, dictInsert_notMem _ _ _ (by simp)]
      exact RegInv_singleton _ _
    | fallbackFail =>
      rw [stopAll_eq_nil]; exact RegInv_nil

theorem registry_invariant_witness :
    RegInv (dictInsert (stopAll []) 0 ⟨"repo/M", 5, 4000⟩) :=
  registry_invariant _
    (Reachable.step Reachable.nil
      (Step.fallbackSuccess [] ⟨"repo/M", 5, 4000⟩))

end VllmGateway
